import Mathlib

/-!
Shallow embedding of the core parsing and status logic of
`src/app/main.py` (OpenProjectCommitSync), together with proofs about the
claims of the specification.

Modelling conventions:
* Python `str` values are modelled as `List Char`.
* Python regular-expression character classes are modelled over ASCII:
  `\d` as `Char.isDigit`, `\s` as `Char.isWhitespace`, `\w` as
  `Char.isAlphanum` or underscore, and `str.lower` / `re.IGNORECASE` via
  `Char.toLower` (exactly the CPython ASCII behaviour on the inputs the
  program handles).
* `re.finditer` / `re.search` semantics (leftmost match, non-overlapping,
  greedy quantifiers) are implemented by dedicated scanners; each scanner
  documents why it is extensionally equal to the backtracking semantics of
  its pattern.
* Fallible code (the `splitlines()[0]` indexing, HTTP calls) is modelled
  with `Option` / explicit outcome types.
-/

/-- The single-quote character (U+0027) used by the merge-commit patterns. -/
def squote : Char := Char.ofNat 39

/-- The forward-slash character (U+002F). -/
def slashChar : Char := Char.ofNat 47

/-- The hash character (U+0023) that prefixes task references. -/
def hashChar : Char := Char.ofNat 35

/-- The hyphen character (U+002D). -/
def dashChar : Char := Char.ofNat 45

/-- The underscore character (U+005F). -/
def usChar : Char := Char.ofNat 95

/-- The dot character (U+002E). -/
def dotChar : Char := Char.ofNat 46

/-- Python `str.lower()` on one character (ASCII range), i.e. `Char.toLower`. -/
def pyLower (s : List Char) : List Char := s.map Char.toLower

/-- Python `str.strip()`: drop whitespace from both ends. -/
def pyStrip (s : List Char) : List Char :=
  ((s.dropWhile Char.isWhitespace).reverse.dropWhile Char.isWhitespace).reverse

/-- Python `str.isdigit()` (ASCII digits): nonempty and all digits. -/
def pyIsDigit (s : List Char) : Bool := !s.isEmpty && s.all Char.isDigit

/-- Python `int(raw)` for a string of decimal digits. -/
def digitsToNat (ds : List Char) : Nat :=
  ds.foldl (fun acc c => 10 * acc + (c.toNat - 48)) 0

/-- Python `dict.fromkeys` / `raw not in seen` deduplication: keep the first
occurrence of each element, given an accumulator of already-seen elements. -/
def firstDedup {α : Type} [DecidableEq α] : List α → List α → List α
  | [], _ => []
  | a :: rest, seen =>
    if a ∈ seen then firstDedup rest seen else a :: firstDedup rest (a :: seen)

/-- Python `s.replace(pat, "", 1)`: remove the leftmost occurrence of `pat`
from `s` (used for `branch.replace("origin/", "", 1)` in main.py line 145). -/
def removeFirst (pat : List Char) : List Char → List Char
  | [] => []
  | c :: rest =>
    if pat.isPrefixOf (c :: rest) then (c :: rest).drop pat.length
    else c :: removeFirst pat rest

/-- Everything after the first slash, empty if there is none.
`afterFirstSlash1 s` equals Python `s.split("/", 1)[-1]` when `"/" in s`. -/
def afterFirstSlash1 : List Char → List Char
  | [] => []
  | c :: rest => if c = slashChar then rest else afterFirstSlash1 rest

/-- Python `s.split("/")[-1]`: the final slash-separated segment. -/
def lastSeg (s : List Char) : List Char :=
  (s.reverse.takeWhile (fun c => !(c == slashChar))).reverse

/-- Case-insensitive literal-prefix matcher: strips `pat` (compared through
`Char.toLower`, modelling `re.IGNORECASE`) from the front of the input. -/
def stripPrefixCI : List Char → List Char → Option (List Char)
  | [], s => some s
  | _ :: _, [] => none
  | p :: ps, c :: cs =>
    if Char.toLower p = Char.toLower c then stripPrefixCI ps cs else none

/-- `re.search` driver: try a deterministic matcher at every start position,
left to right, returning the leftmost success. -/
def searchPat {α : Type} (m : List Char → Option α) : List Char → Option α
  | [] => m []
  | c :: rest =>
    match m (c :: rest) with
    | some r => some r
    | none => searchPat m rest

/-- Auxiliary loop for `splitlines`: accumulates the current line (reversed). -/
def splitlinesAux : List Char → List Char → List (List Char)
  | [], acc => [acc.reverse]
  | c :: rest, acc =>
    if c = Char.ofNat 10 then
      match rest with
      | [] => [acc.reverse]
      | _ :: _ => acc.reverse :: splitlinesAux rest []
    else if c = Char.ofNat 13 then
      match rest with
      | [] => [acc.reverse]
      | c2 :: rest2 =>
        if c2 = Char.ofNat 10 then
          match rest2 with
          | [] => [acc.reverse]
          | _ :: _ => acc.reverse :: splitlinesAux rest2 []
        else acc.reverse :: splitlinesAux (c2 :: rest2) []
    else splitlinesAux rest (c :: acc)

/-- Python `str.splitlines()` restricted to the line breaks LF, CR and CRLF:
the empty string yields no lines, and a trailing line break does not create a
trailing empty line. -/
def splitlines : List Char → List (List Char)
  | [] => []
  | c :: rest => splitlinesAux (c :: rest) []

/-- Scanner for `TASK_ID_PATTERN = re.compile(r"#(\d+)")` (main.py line 24):
returns the (start position, digit group) of every match, left to right.
A match starts at a hash that is followed by at least one digit and its group
is the maximal digit run after the hash.  Continuing the scan one character
after the hash is extensionally the same as resuming after the whole match
(finditer non-overlap), because the consumed span `#digits` cannot contain a
further hash. -/
def scanTaskIds : List Char → Nat → List (Nat × List Char)
  | [], _ => []
  | c :: rest, pos =>
    if c = hashChar then
      (let ds := rest.takeWhile Char.isDigit
       if ds = [] then scanTaskIds rest (pos + 1)
       else (pos, ds) :: scanTaskIds rest (pos + 1))
    else scanTaskIds rest (pos + 1)

/-- The discard test of `iter_task_ids` (main.py line 287): the lowered text
before the match ends with "pull request " or "pull-request ". -/
def prSuffixTest (before : List Char) : Bool :=
  "pull request ".toList.isSuffixOf before || "pull-request ".toList.isSuffixOf before

/-- The generator loop of `iter_task_ids` (main.py lines 280-292) on an
explicit match list, yielding the raw digit strings that pass both the
pull-request filter and the `raw not in seen` deduplication. -/
def iterTaskIdsAux (text : List Char) : List (Nat × List Char) → List (List Char) → List (List Char)
  | [], _ => []
  | m :: rest, seen =>
    if prSuffixTest (pyLower (text.take m.1)) then iterTaskIdsAux text rest seen
    else if m.2 ∈ seen then iterTaskIdsAux text rest seen
    else m.2 :: iterTaskIdsAux text rest (m.2 :: seen)

/-- The raw digit strings yielded by `iter_task_ids` in order. -/
def iterTaskIdsRaw (text : List Char) : List (List Char) :=
  iterTaskIdsAux text (scanTaskIds text 0) []

/-- `iter_task_ids` (main.py lines 280-292): each yielded value is
`int(raw)`; mapping at the end is equivalent to converting at each yield. -/
def iter_task_ids (text : List Char) : List Nat :=
  (iterTaskIdsRaw text).map digitsToNat

/-- Scanner for `BRANCH_TASK_PATTERN = re.compile(r"(?:^|[-_/])(\d+)")`
(main.py line 25) away from the start of the string: a match consumes a
separator and the maximal digit run after it.  Resuming right after the
separator instead of after the digits is extensionally the same
(finditer non-overlap), because a digit run contains no separator. -/
def scanBranchIdsAux : List Char → List (List Char)
  | [] => []
  | c :: rest =>
    if c = dashChar ∨ c = usChar ∨ c = slashChar then
      (let ds := rest.takeWhile Char.isDigit
       if ds = [] then scanBranchIdsAux rest else ds :: scanBranchIdsAux rest)
    else scanBranchIdsAux rest

/-- Full scanner for `BRANCH_TASK_PATTERN`, handling the start-of-string
alternative of `(?:^|[-_/])`. -/
def scanBranchIds (s : List Char) : List (List Char) :=
  match s with
  | [] => []
  | c :: rest =>
    if c.isDigit then (c :: rest.takeWhile Char.isDigit) :: scanBranchIdsAux rest
    else scanBranchIdsAux (c :: rest)

/-- `iter_branch_task_ids` (main.py lines 295-303): first the `#(\d+)`
pattern with first-occurrence deduplication of the raw strings
(`list(dict.fromkeys(...))`); only if that is empty, the looser
branch pattern without deduplication. -/
def iter_branch_task_ids (branch_name : List Char) : List Nat :=
  let ids := firstDedup ((scanTaskIds branch_name 0).map Prod.snd) []
  if ids.isEmpty then (scanBranchIds branch_name).map digitsToNat
  else ids.map digitsToNat

/-- The literal `"origin/"` removed from merge-source candidates. -/
def originPat : List Char := "origin/".toList

/-- The literal opening of `MERGE_BRANCH_PATTERN`: `Merge branch` and a quote. -/
def mergeBranchLit : List Char := "Merge branch ".toList ++ [squote]

/-- The middle literal of `MERGE_BRANCH_PATTERN`: ` into ` and a quote. -/
def intoLit : List Char := " into ".toList ++ [squote]

/-- The literal opening of `MERGE_REMOTE_PATTERN`. -/
def mergeRemoteLit : List Char := "Merge remote-tracking branch ".toList ++ [squote]

/-- Character class `[\w\-./]` of `MERGE_PR_PATTERN` (ASCII `\w`). -/
def isBranchChar (c : Char) : Bool :=
  c.isAlphanum || c == usChar || c == dashChar || c == dotChar || c == slashChar

/-- Deterministic matcher for `MERGE_PR_PATTERN` (main.py line 26),
`Merge pull request #\d+ from [^/\s]+/(?P<branch>[\w\-./]+)` with
`re.IGNORECASE`, anchored at the start of the input; returns the `branch`
group.  All quantifiers are determined: `\d+` must be the maximal digit run
(a shorter run would put a digit where ` from ` is required), `[^/\s]+` must
be the maximal run (a shorter run would put a non-slash where `/` is
required), and the final greedy `[\w\-./]+` ends the pattern. -/
def matchPRAt (cs : List Char) : Option (List Char) :=
  match stripPrefixCI "Merge pull request #".toList cs with
  | none => none
  | some r1 =>
    let ds := r1.takeWhile Char.isDigit
    if ds = [] then none
    else
      match stripPrefixCI " from ".toList (r1.drop ds.length) with
      | none => none
      | some r2 =>
        let owner := r2.takeWhile (fun c => !(c == slashChar) && !c.isWhitespace)
        if owner = [] then none
        else
          match r2.drop owner.length with
          | [] => none
          | c :: r3 =>
            if c = slashChar then
              (let br := r3.takeWhile isBranchChar
               if br = [] then none else some br)
            else none

/-- Deterministic matcher for `MERGE_BRANCH_PATTERN` (main.py line 27),
`Merge branch '([^']+)' into '([^']+)'` with `re.IGNORECASE`, anchored at
the start of the input; returns both groups.  Each `[^']+` group is the
maximal run of non-quote characters before the next quote, so no
backtracking alternative exists; the character after the run, if any, is
necessarily the closing quote. -/
def matchBranchAt (cs : List Char) : Option (List Char × List Char) :=
  match stripPrefixCI mergeBranchLit cs with
  | none => none
  | some r1 =>
    let g1 := r1.takeWhile (fun c => !(c == squote))
    if g1 = [] then none
    else
      match r1.drop g1.length with
      | [] => none
      | _ :: r2 =>
        match stripPrefixCI intoLit r2 with
        | none => none
        | some r3 =>
          let g2 := r3.takeWhile (fun c => !(c == squote))
          if g2 = [] then none
          else
            match r3.drop g2.length with
            | [] => none
            | _ :: _ => some (g1, g2)

/-- Deterministic matcher for `MERGE_REMOTE_PATTERN` (main.py line 28),
`Merge remote-tracking branch '([^']+)'` with `re.IGNORECASE`, anchored at
the start of the input; returns the group. -/
def matchRemoteAt (cs : List Char) : Option (List Char) :=
  match stripPrefixCI mergeRemoteLit cs with
  | none => none
  | some r1 =>
    let g1 := r1.takeWhile (fun c => !(c == squote))
    if g1 = [] then none
    else
      match r1.drop g1.length with
      | [] => none
      | _ :: _ => some g1

/-- The body of `extract_source_branch_from_message` (main.py lines 135-156)
on the already-extracted first line: the three patterns are searched in
order; a matching pattern returns its post-processed candidate when it is
nonempty and differs from the target branch, and otherwise control falls
through to the next pattern. -/
def extract_core (first_line target_branch : List Char) : Option (List Char) :=
  let r1 : Option (List Char) :=
    match searchPat matchPRAt first_line with
    | none => none
    | some g =>
      let branch := if slashChar ∈ g then afterFirstSlash1 g else g
      if branch ≠ [] ∧ branch ≠ target_branch then some branch else none
  match r1 with
  | some b => some b
  | none =>
    let r2 : Option (List Char) :=
      match searchPat matchBranchAt first_line with
      | none => none
      | some gp =>
        let branch := removeFirst originPat (pyStrip gp.1)
        if branch ≠ [] ∧ branch ≠ target_branch then some branch else none
    match r2 with
    | some b => some b
    | none =>
      match searchPat matchRemoteAt first_line with
      | none => none
      | some g =>
        let branch := removeFirst originPat (pyStrip g)
        if branch ≠ [] ∧ branch ≠ target_branch then some branch else none

/-- `extract_source_branch_from_message` (main.py lines 132-156).  The outer
`Option` models the `splitlines()[0]` indexing: `none` is the `IndexError`
raised when the message has no lines; `some r` is normal return with result
`r`. -/
def extract_source_branch_from_message (message target_branch : List Char) :
    Option (Option (List Char)) :=
  match splitlines message with
  | [] => none
  | first_line :: _ => some (extract_core first_line target_branch)

/-- The candidate produced by the first pattern block of
`extract_source_branch_from_message` before the accept test. -/
def prCandidate (line : List Char) : Option (List Char) :=
  (searchPat matchPRAt line).map
    (fun g => if slashChar ∈ g then afterFirstSlash1 g else g)

/-- The candidate produced by the second pattern block before the accept test. -/
def branchCandidate (line : List Char) : Option (List Char) :=
  (searchPat matchBranchAt line).map
    (fun gp => removeFirst originPat (pyStrip gp.1))

/-- The candidate produced by the third pattern block before the accept test. -/
def remoteCandidate (line : List Char) : Option (List Char) :=
  (searchPat matchRemoteAt line).map
    (fun g => removeFirst originPat (pyStrip g))

/-- First-acceptable-candidate selection over an ordered candidate list: a
matched candidate wins when it is nonempty and differs from the target,
otherwise the later candidates are consulted. -/
def firstAccepted (target_branch : List Char) : List (Option (List Char)) → Option (List Char)
  | [] => none
  | none :: rest => firstAccepted target_branch rest
  | some b :: rest =>
    if b ≠ [] ∧ b ≠ target_branch then some b else firstAccepted target_branch rest

/-- Python `ref.split("/", 2)[-1]`: with two or more slashes, everything
after the second slash; with one slash, everything after it; otherwise the
input itself. -/
def split2Last (s : List Char) : List Char :=
  if slashChar ∈ s then
    (let r := afterFirstSlash1 s
     if slashChar ∈ r then afterFirstSlash1 r else r)
  else s

/-- `extract_branch_name` (main.py lines 111-116). -/
def extract_branch_name (ref : List Char) : List Char :=
  if ref = [] then []
  else if slashChar ∈ ref then split2Last ref
  else ref

/-- The branch-name rule exactly as the claim words it: keep everything
after the second slash of the ref (empty when there is no second slash). -/
def specAfterSecondSlash (ref : List Char) : List Char :=
  afterFirstSlash1 (afterFirstSlash1 ref)

/-- `derive_status_key_from_branch` (main.py lines 119-129). -/
def derive_status_key_from_branch (branch_name : List Char) : Option (List Char) :=
  let name := pyLower (pyStrip branch_name)
  if name = [] then none
  else
    let short := lastSeg name
    if short = "main".toList ∨ short = "master".toList then some "completed".toList
    else if short = "dev".toList then some "testing".toList
    else none

/-- The status rule exactly as the claim words it: take the final
slash-separated segment of the branch name, lower-case it, and compare;
an empty branch name yields none. -/
def deriveStatusSpecClaim (branch_name : List Char) : Option (List Char) :=
  if branch_name = [] then none
  else
    let short := pyLower (lastSeg branch_name)
    if short = "main".toList ∨ short = "master".toList then some "completed".toList
    else if short = "dev".toList then some "testing".toList
    else none

/-- The shapes a JSON status-mapping value can take in
`normalize_status_value`: Python `bool`, `int`, `str`, or anything else.
Booleans are listed separately because Python `bool` is a subclass of
`int`: `json.loads` decodes JSON `true`/`false` to them and they pass the
`isinstance(value, int)` test of main.py line 54. -/
inductive JsonValue where
  | bool (b : Bool)
  | int (n : Int)
  | str (s : List Char)
  | other
deriving DecidableEq

/-- Python `f"{b}"` for a `bool`: "True" or "False". -/
def boolToStr : Bool → List Char
  | true => "True".toList
  | false => "False".toList

/-- Python `f"{n}"` for an `int`. -/
def intToStr : Int → List Char
  | Int.ofNat n => Nat.toDigits 10 n
  | Int.negSucc n => dashChar :: Nat.toDigits 10 (n + 1)

/-- The synthetic tracker path base `"/api/v3/statuses/"`. -/
def statusPathLit : List Char := "/api/v3/statuses/".toList

/-- `normalize_status_value` (main.py lines 53-66).  A boolean satisfies
`isinstance(value, int)` (bool is a subclass of int), so it takes the
integer branch of line 54 and the f-string of line 55 renders it as
"True"/"False" — it is not dropped. -/
def normalize_status_value : JsonValue → Option (List Char)
  | JsonValue.bool b => some (statusPathLit ++ boolToStr b)
  | JsonValue.int n => some (statusPathLit ++ intToStr n)
  | JsonValue.str s =>
    let raw := pyStrip s
    if raw = [] then none
    else if pyIsDigit raw then some (statusPathLit ++ raw)
    else if "http".toList.isPrefixOf raw || "/api/".toList.isPrefixOf raw then some raw
    else if [slashChar].isPrefixOf raw then some raw
    else none
  | JsonValue.other => none

/-- The amended normalization rule: values are stripped of surrounding
whitespace first; an integer yields the synthetic path of its decimal form
and a boolean — being a Python int — yields the synthetic path of its
"True"/"False" rendering; a stripped nonempty digit string yields the
synthetic path of that string; a stripped string starting with "http" or a
slash is passed through in its stripped form; every non-bool, non-int,
non-str shape is dropped. -/
def normalizeSpecAmended : JsonValue → Option (List Char)
  | JsonValue.bool b => some (statusPathLit ++ boolToStr b)
  | JsonValue.int n => some (statusPathLit ++ intToStr n)
  | JsonValue.str s =>
    let raw := pyStrip s
    if raw ≠ [] ∧ raw.all Char.isDigit then some (statusPathLit ++ raw)
    else if "http".toList.isPrefixOf raw || [slashChar].isPrefixOf raw then some raw
    else none
  | JsonValue.other => none

/-- Response of one outbound tracker call as consumed by
`update_task_status`: the HTTP status code and the optional
`lockVersion` field of the decoded JSON body (`resp.json().get("lockVersion")`). -/
structure TrackerResponse where
  status_code : Nat
  lockVersion : Option Nat
deriving DecidableEq

/-- How a call to `update_task_status` ends: ordinary return, or an
`HTTPException` with the given status code. -/
inductive UpdateResult where
  | returned
  | raised (code : Nat)
deriving DecidableEq

/-- `update_task_status` (main.py lines 159-214) with the outbound HTTP
calls abstracted as oracles: `href` is the mapped status reference (if
any), `configured` is the presence of base URL and auth header, `fetch` is
the result of the GET (`none` models a `requests.RequestException`), and
`patch` is the result of the PATCH.  Returns the outcome together with
whether the PATCH request was issued at all. -/
def update_task_status (href : Option (List Char)) (configured : Bool)
    (fetch : Option TrackerResponse) (patch : Option TrackerResponse) :
    UpdateResult × Bool :=
  match href with
  | none => (UpdateResult.returned, false)
  | some _ =>
    if !configured then (UpdateResult.raised 500, false)
    else
      match fetch with
      | none => (UpdateResult.raised 502, false)
      | some resp =>
        if resp.status_code = 404 then (UpdateResult.returned, false)
        else if 300 ≤ resp.status_code then (UpdateResult.raised 500, false)
        else
          match resp.lockVersion with
          | none => (UpdateResult.raised 500, false)
          | some _ =>
            match patch with
            | none => (UpdateResult.raised 502, true)
            | some presp =>
              if presp.status_code = 404 then (UpdateResult.returned, true)
              else if 300 ≤ presp.status_code then (UpdateResult.raised 500, true)
              else (UpdateResult.returned, true)

/-- The message preprocessing of `process_commits` (main.py lines 352-359):
each commit message is stripped, commits with empty stripped messages are
skipped, and `extract_source_branch_from_message` is invoked on exactly the
surviving stripped messages. -/
def processCommitMessages (msgs : List (List Char)) : List (List Char) :=
  msgs.filterMap (fun raw => let m := pyStrip raw; if m = [] then none else some m)

/-- The pull-request example text of the claims. -/
def prExample : List Char := "Merge pull request #42 from user/fix-#7".toList

/-- A text with two distinct digit-string matches of the same numeric value. -/
def dupExample : List Char := "#07 #7".toList

/-- The merge-commit example of the claims:
Merge branch (quote)feature-x(quote) into (quote)main(quote). -/
def mergeLineX : List Char :=
  mergeBranchLit ++ "feature-x".toList ++ [squote] ++ intoLit ++ "main".toList ++ [squote]

/-- A first line on which the second merge pattern matches with a candidate
equal to the target while the third pattern also matches with a different
candidate. -/
def fallthroughLine : List Char :=
  mergeBranchLit ++ "main".toList ++ [squote] ++ intoLit ++ "dev".toList ++ [squote]
    ++ " ".toList ++ mergeRemoteLit ++ "feat".toList ++ [squote]

/-- A merge line whose source branch contains "origin/" in a non-leading
position. -/
def originInsideLine : List Char :=
  mergeBranchLit ++ "feature/origin/x".toList ++ [squote] ++ intoLit ++ "main".toList ++ [squote]

theorem firstDedup_not_mem_seen {α : Type} [DecidableEq α] :
    ∀ (l seen : List α), ∀ a ∈ firstDedup l seen, a ∉ seen := by
  intro l
  induction l with
  | nil => intro seen a ha; simp [firstDedup] at ha
  | cons b t ih =>
    intro seen a ha
    rw [firstDedup] at ha
    by_cases hb : b ∈ seen
    · rw [if_pos hb] at ha
      exact ih seen a ha
    · rw [if_neg hb] at ha
      rcases List.mem_cons.mp ha with h | h
      · exact h ▸ hb
      · have := ih (b :: seen) a h
        exact fun hmem => this (List.mem_cons_of_mem b hmem)

theorem firstDedup_nodup {α : Type} [DecidableEq α] :
    ∀ (l seen : List α), (firstDedup l seen).Nodup := by
  intro l
  induction l with
  | nil => intro seen; simp [firstDedup]
  | cons b t ih =>
    intro seen
    rw [firstDedup]
    by_cases hb : b ∈ seen
    · rw [if_pos hb]; exact ih seen
    · rw [if_neg hb]
      refine List.nodup_cons.mpr ⟨?_, ih (b :: seen)⟩
      intro hmem
      exact firstDedup_not_mem_seen t (b :: seen) b hmem (List.mem_cons_self b seen)

theorem firstDedup_sublist {α : Type} [DecidableEq α] :
    ∀ (l seen : List α), List.Sublist (firstDedup l seen) l := by
  intro l
  induction l with
  | nil => intro seen; simp [firstDedup]
  | cons b t ih =>
    intro seen
    rw [firstDedup]
    by_cases hb : b ∈ seen
    · rw [if_pos hb]; exact (ih seen).cons b
    · rw [if_neg hb]; exact (ih (b :: seen)).cons₂ b

theorem firstDedup_nil_iff {α : Type} [DecidableEq α] (l : List α) :
    firstDedup l [] = [] ↔ l = [] := by
  cases l with
  | nil => simp [firstDedup]
  | cons a t => simp [firstDedup]

theorem iterTaskIdsAux_eq :
    ∀ (text : List Char) (ms : List (Nat × List Char)) (seen : List (List Char)),
      iterTaskIdsAux text ms seen =
        firstDedup ((ms.filter
          (fun m => !prSuffixTest (pyLower (text.take m.1)))).map Prod.snd) seen := by
  intro text ms
  induction ms with
  | nil => intro seen; simp [iterTaskIdsAux, firstDedup]
  | cons m t ih =>
    intro seen
    rw [iterTaskIdsAux, List.filter_cons]
    by_cases hpr : prSuffixTest (pyLower (text.take m.1)) = true
    · rw [if_pos hpr, ih seen]
      simp [hpr]
    · have hpr2 : prSuffixTest (pyLower (text.take m.1)) = false :=
        Bool.eq_false_iff.mpr hpr
      rw [if_neg hpr]
      simp only [hpr2, Bool.not_false, if_pos, List.map_cons, firstDedup]
      by_cases hseen : m.2 ∈ seen
      · rw [if_pos hseen, if_pos hseen, ih seen]
      · rw [if_neg hseen, if_neg hseen, ih (m.2 :: seen)]

/-- Claim C1 (counterexample): on the text "#07 #7" the function
`iter_task_ids` returns [7, 7] — two equal identifier values — because the
deduplication of main.py line 290 is keyed on the matched digit string, not
on the numeric value, so the claim that the returned sequence never contains
duplicate identifier values is false. -/
theorem iter_task_ids_dup_counterexample :
    iter_task_ids dupExample = [7, 7] ∧ ¬ (iter_task_ids dupExample).Nodup := by
  constructor
  · decide
  · decide

/-- Claim C1 (amended): `iter_task_ids` yields the matched digit strings
deduplicated by their textual form: the underlying digit-string sequence has
no duplicates and is a subsequence of the match sequence (hence in order of
first appearance), and the returned identifiers are exactly those strings
read as numbers.  Duplicate numeric values can therefore arise only from
distinct digit strings of equal value (leading zeros). -/
theorem iter_task_ids_amended : ∀ text : List Char,
    (iterTaskIdsRaw text).Nodup ∧
    List.Sublist (iterTaskIdsRaw text) ((scanTaskIds text 0).map Prod.snd) ∧
    iter_task_ids text = (iterTaskIdsRaw text).map digitsToNat := by
  intro text
  refine ⟨?_, ?_, rfl⟩
  · rw [iterTaskIdsRaw, iterTaskIdsAux_eq]
    exact firstDedup_nodup _ _
  · rw [iterTaskIdsRaw, iterTaskIdsAux_eq]
    exact (firstDedup_sublist _ _).trans ((List.filter_sublist _).map Prod.snd)

/-- Claim C3: a `#(digits)` match is discarded exactly when the lowered text
before it ends with "pull request " or "pull-request ": the yielded raw
strings are the first-occurrence deduplication of exactly the matches that
pass that test; in particular on the example text the PR number 42 is
excluded and 7 is included. -/
theorem iter_task_ids_pr_filter :
    (∀ text : List Char,
      iterTaskIdsRaw text =
        firstDedup (((scanTaskIds text 0).filter
          (fun m => !prSuffixTest (pyLower (text.take m.1)))).map Prod.snd) []) ∧
    iter_task_ids prExample = [7] := by
  constructor
  · intro text
    exact iterTaskIdsAux_eq text (scanTaskIds text 0) []
  · decide

/-- Claim C7: `iter_branch_task_ids` returns the deduplicated `#(digits)`
matches when there are any, and otherwise all matches of the looser branch
pattern in order without deduplication; in particular "task-123-login"
gives [123] and "feature/no-numbers" gives []. -/
theorem iter_branch_task_ids_spec :
    (∀ b : List Char,
      iter_branch_task_ids b =
        if (scanTaskIds b 0).map Prod.snd = []
        then (scanBranchIds b).map digitsToNat
        else (firstDedup ((scanTaskIds b 0).map Prod.snd) []).map digitsToNat) ∧
    iter_branch_task_ids ("task-123-login".toList) = [123] ∧
    iter_branch_task_ids ("feature/no-numbers".toList) = [] := by
  refine ⟨?_, by decide, by decide⟩
  intro b
  rw [iter_branch_task_ids]
  by_cases h : (scanTaskIds b 0).map Prod.snd = []
  · have h2 : firstDedup ((scanTaskIds b 0).map Prod.snd) [] = [] :=
      (firstDedup_nil_iff _).mpr h
    simp [h, h2, firstDedup]
  · have h2 : firstDedup ((scanTaskIds b 0).map Prod.snd) [] ≠ [] :=
      fun hh => h ((firstDedup_nil_iff _).mp hh)
    simp [h, List.isEmpty_iff, h2]

theorem extract_core_eq_firstAccepted (line target : List Char) :
    extract_core line target =
      firstAccepted target [prCandidate line, branchCandidate line, remoteCandidate line] := by
  simp only [extract_core, prCandidate, branchCandidate, remoteCandidate]
  cases h1 : searchPat matchPRAt line with
  | none =>
    cases h2 : searchPat matchBranchAt line with
    | none =>
      cases h3 : searchPat matchRemoteAt line with
      | none => simp [firstAccepted]
      | some g =>
        by_cases hc : removeFirst originPat (pyStrip g) ≠ [] ∧
            removeFirst originPat (pyStrip g) ≠ target
        · simp [firstAccepted, hc]
        · simp [firstAccepted, hc]
    | some gp =>
      by_cases hc : removeFirst originPat (pyStrip gp.1) ≠ [] ∧
          removeFirst originPat (pyStrip gp.1) ≠ target
      · simp [firstAccepted, hc]
      · cases h3 : searchPat matchRemoteAt line with
        | none => simp [firstAccepted, hc]
        | some g =>
          by_cases hc3 : removeFirst originPat (pyStrip g) ≠ [] ∧
              removeFirst originPat (pyStrip g) ≠ target
          · simp [firstAccepted, hc, hc3]
          · simp [firstAccepted, hc, hc3]
  | some g =>
    by_cases hc : (if slashChar ∈ g then afterFirstSlash1 g else g) ≠ [] ∧
        (if slashChar ∈ g then afterFirstSlash1 g else g) ≠ target
    · simp [firstAccepted, hc]
    · cases h2 : searchPat matchBranchAt line with
      | none =>
        cases h3 : searchPat matchRemoteAt line with
        | none => simp [firstAccepted, hc]
        | some g3 =>
          by_cases hc3 : removeFirst originPat (pyStrip g3) ≠ [] ∧
              removeFirst originPat (pyStrip g3) ≠ target
          · simp [firstAccepted, hc, hc3]
          · simp [firstAccepted, hc, hc3]
      | some gp =>
        by_cases hc2 : removeFirst originPat (pyStrip gp.1) ≠ [] ∧
            removeFirst originPat (pyStrip gp.1) ≠ target
        · simp [firstAccepted, hc, hc2]
        · cases h3 : searchPat matchRemoteAt line with
          | none => simp [firstAccepted, hc, hc2]
          | some g3 =>
            by_cases hc3 : removeFirst originPat (pyStrip g3) ≠ [] ∧
                removeFirst originPat (pyStrip g3) ≠ target
            · simp [firstAccepted, hc, hc2, hc3]
            · simp [firstAccepted, hc, hc2, hc3]

theorem splitlinesAux_ne_nil : ∀ (cs acc : List Char), splitlinesAux cs acc ≠ [] := by
  intro cs
  induction cs with
  | nil => intro acc; simp [splitlinesAux]
  | cons c rest ih =>
    intro acc
    rw [splitlinesAux.eq_def]
    simp only []
    by_cases h1 : c = Char.ofNat 10
    · rw [if_pos h1]
      cases rest <;> simp
    · rw [if_neg h1]
      by_cases h2 : c = Char.ofNat 13
      · rw [if_pos h2]
        cases rest with
        | nil => simp
        | cons c2 rest2 =>
          simp only []
          by_cases h3 : c2 = Char.ofNat 10
          · rw [if_pos h3]
            cases rest2 <;> simp
          · rw [if_neg h3]
            simp
      · rw [if_neg h2]
        exact ih (c :: acc)

theorem splitlines_eq_nil_iff (m : List Char) : splitlines m = [] ↔ m = [] := by
  cases m with
  | nil => simp [splitlines]
  | cons c rest =>
    constructor
    · intro h
      exact absurd h (splitlinesAux_ne_nil (c :: rest) [])
    · intro h
      cases h

/-- Claim C2 (counterexample): on a first line where the second merge pattern
matches with a candidate equal to the target branch, the code does not stop
with no result: it falls through and returns the candidate of the third
pattern, so the claim that no later pattern is consulted once one has
matched is false. -/
theorem extract_source_fallthrough_counterexample :
    prCandidate fallthroughLine = none ∧
    branchCandidate fallthroughLine = some ("main".toList) ∧
    extract_core fallthroughLine ("main".toList) = some ("feat".toList) := by
  refine ⟨by decide, by decide, by decide⟩

/-- Claim C2 (amended): only the first line of the message is inspected
(the result is a function of the head of the line list); the three merge
patterns are tried in order and the first matched candidate that is
non-empty and differs from the target branch wins, while a matched
candidate failing that test makes control fall through to the later
patterns; the claimed examples hold. -/
theorem extract_source_amended :
    (∀ m t : List Char,
      extract_source_branch_from_message m t =
        ((splitlines m).head?).map (fun l => extract_core l t)) ∧
    (∀ l t : List Char,
      extract_core l t =
        firstAccepted t [prCandidate l, branchCandidate l, remoteCandidate l]) ∧
    extract_source_branch_from_message mergeLineX ("main".toList) =
      some (some ("feature-x".toList)) ∧
    extract_source_branch_from_message mergeLineX ("feature-x".toList) = some none := by
  refine ⟨?_, extract_core_eq_firstAccepted, by decide, by decide⟩
  intro m t
  rw [extract_source_branch_from_message]
  cases h : splitlines m <;> simp

/-- Claim C9 (counterexample): a whitespace-only message such as a single
space does not make the first-line indexing fail: its line list is the
one-element list of itself, and `extract_source_branch_from_message`
returns normally, so the claim that the indexing fails when the message is
empty or whitespace-only is wrong for whitespace-only messages without
line breaks. -/
theorem extract_source_whitespace_counterexample :
    pyStrip (" ".toList) = [] ∧ (" ".toList : List Char) ≠ [] ∧
    extract_source_branch_from_message (" ".toList) [] = some none := by
  refine ⟨by decide, by decide, by decide⟩

/-- Claim C9 (amended): the first-line indexing of
`extract_source_branch_from_message` fails exactly on the empty message
(the only message whose `splitlines` is empty), and `process_commits`
invokes it only on stripped non-empty messages, on which the indexing
therefore always succeeds and the failure branch is unreachable. -/
theorem extract_source_safety_amended :
    (∀ m t : List Char, extract_source_branch_from_message m t = none ↔ m = []) ∧
    (∀ (msgs : List (List Char)) (t m : List Char),
      m ∈ processCommitMessages msgs →
      (extract_source_branch_from_message m t).isSome) := by
  have hmain : ∀ m t : List Char,
      extract_source_branch_from_message m t = none ↔ m = [] := by
    intro m t
    rw [extract_source_branch_from_message]
    cases h : splitlines m with
    | nil =>
      simp only []
      exact ⟨fun _ => (splitlines_eq_nil_iff m).mp h, fun _ => trivial⟩
    | cons l rest =>
      simp only []
      constructor
      · intro hsome
        cases hsome
      · intro hm
        subst hm
        cases h
  refine ⟨hmain, ?_⟩
  intro msgs t m hm
  rw [processCommitMessages, List.mem_filterMap] at hm
  obtain ⟨raw, _, hraw⟩ := hm
  by_cases hz : pyStrip raw = []
  · rw [if_pos hz] at hraw
    cases hraw
  · rw [if_neg hz] at hraw
    have hmne : m ≠ [] := by
      intro hnil
      apply hz
      have := Option.some.inj hraw
      rw [this]
      exact hnil
    rw [Option.isSome_iff_ne_none]
    intro hnone
    exact hmne ((hmain m t).mp hnone)

/-- Claim C9 (witness): the amended safety statement applied to the single
commit message " fix #3 ", which `process_commits` strips to "fix #3". -/
theorem extract_source_safety_amended_witness :
    (extract_source_branch_from_message ("fix #3".toList) []).isSome :=
  extract_source_safety_amended.2 [" fix #3 ".toList] [] ("fix #3".toList) (by decide)

theorem afterFirstSlash1_append : ∀ (p t : List Char), slashChar ∉ p →
    afterFirstSlash1 (p ++ slashChar :: t) = t := by
  intro p
  induction p with
  | nil =>
    intro t _
    simp [afterFirstSlash1]
  | cons c p ih =>
    intro t hp
    have hc : ¬ c = slashChar := fun h => hp (h ▸ List.mem_cons_self c p)
    rw [List.cons_append, afterFirstSlash1, if_neg hc]
    exact ih t (fun h => hp (List.mem_cons_of_mem c h))

/-- Claim C4 (counterexample): on the ref "refs/heads", which has only one
slash, `extract_branch_name` keeps everything after the first slash
("heads"), not everything after the second slash (which would be empty),
so the claim is false for refs with fewer than two slashes. -/
theorem extract_branch_name_counterexample :
    extract_branch_name ("refs/heads".toList) = "heads".toList ∧
    specAfterSecondSlash ("refs/heads".toList) = [] ∧
    ("heads".toList : List Char) ≠ [] := by
  refine ⟨by decide, by decide, by decide⟩

/-- Claim C4 (amended): the empty ref yields the empty branch name; a ref
without a slash is returned unchanged; a ref with exactly one slash yields
everything after it; and a ref with two or more slashes yields everything
after the second slash. -/
theorem extract_branch_name_amended :
    extract_branch_name [] = [] ∧
    (∀ p : List Char, slashChar ∉ p → extract_branch_name p = p) ∧
    (∀ p q : List Char, slashChar ∉ p → slashChar ∉ q →
      extract_branch_name (p ++ slashChar :: q) = q) ∧
    (∀ p q r : List Char, slashChar ∉ p → slashChar ∉ q →
      extract_branch_name (p ++ slashChar :: (q ++ slashChar :: r)) = r) := by
  refine ⟨by decide, ?_, ?_, ?_⟩
  · intro p hp
    by_cases hp0 : p = []
    · subst hp0; decide
    · rw [extract_branch_name, if_neg hp0, if_neg hp]
  · intro p q hp hq
    have hne : p ++ slashChar :: q ≠ [] := by simp
    have hmem : slashChar ∈ p ++ slashChar :: q := by simp
    rw [extract_branch_name, if_neg hne, if_pos hmem, split2Last, if_pos hmem,
      afterFirstSlash1_append p q hp, if_neg hq]
  · intro p q r hp hq
    have hne : p ++ slashChar :: (q ++ slashChar :: r) ≠ [] := by simp
    have hmem : slashChar ∈ p ++ slashChar :: (q ++ slashChar :: r) := by simp
    have hmem2 : slashChar ∈ q ++ slashChar :: r := by simp
    rw [extract_branch_name, if_neg hne, if_pos hmem, split2Last, if_pos hmem,
      afterFirstSlash1_append p (q ++ slashChar :: r) hp, if_pos hmem2,
      afterFirstSlash1_append q r hq]

/-- Claim C4 (witness): the amended two-or-more-slash case applied to the
ref made of segments "refs", "heads" and remainder "feature/x". -/
theorem extract_branch_name_amended_witness :
    extract_branch_name ("refs".toList ++ slashChar :: ("heads".toList ++ slashChar :: "feature/x".toList))
      = "feature/x".toList :=
  extract_branch_name_amended.2.2.2 ("refs".toList) ("heads".toList) ("feature/x".toList)
    (by decide) (by decide)

theorem removeFirst_append_self (pat s : List Char) (h : pat ≠ []) :
    removeFirst pat (pat ++ s) = s := by
  cases pat with
  | nil => exact absurd rfl h
  | cons p ps =>
    rw [List.cons_append, removeFirst, if_pos]
    · exact List.drop_left (p :: ps) s
    · exact List.isPrefixOf_iff_prefix.mpr (List.prefix_append (p :: ps) s)

/-- Claim C5 (counterexample): in the merge line whose quoted source branch
is "feature/origin/x", the "origin/" occurrence is not a leading prefix,
yet the code removes it (Python `replace("origin/", "", 1)` removes the
first occurrence anywhere): the extracted source branch is "feature/x",
not the untouched "feature/origin/x" the claim requires. -/
theorem strip_origin_counterexample :
    branchCandidate originInsideLine = some ("feature/x".toList) ∧
    extract_core originInsideLine ("main".toList) = some ("feature/x".toList) ∧
    ("feature/x".toList : List Char) ≠ "feature/origin/x".toList := by
  refine ⟨by decide, by decide, by decide⟩

/-- Claim C5 (amended): the candidate transformation removes the leftmost
occurrence of "origin/" anywhere in the captured source: a leading
"origin/" prefix is stripped, and more generally the occurrence removed is
the first one; on the counterexample line the code therefore returns
"feature/x". -/
theorem remove_origin_amended :
    (∀ s : List Char, removeFirst originPat (originPat ++ s) = s) ∧
    (∀ p s : List Char,
      (∀ i : Nat, i < p.length → ¬ originPat.isPrefixOf ((p ++ originPat ++ s).drop i)) →
      removeFirst originPat (p ++ originPat ++ s) = p ++ s) ∧
    extract_core originInsideLine ("main".toList) = some ("feature/x".toList) := by
  refine ⟨?_, ?_, by decide⟩
  · intro s
    exact removeFirst_append_self originPat s (by decide)
  · intro p
    induction p with
    | nil =>
      intro s _
      exact removeFirst_append_self originPat s (by decide)
    | cons c p ih =>
      intro s hno
      have h0 : ¬ originPat.isPrefixOf (c :: (p ++ originPat ++ s)) := by
        have := hno 0 (by simp)
        simpa using this
      show removeFirst originPat (c :: (p ++ originPat ++ s)) = c :: (p ++ s)
      rw [removeFirst, if_neg h0]
      have hnext : ∀ i : Nat, i < p.length →
          ¬ originPat.isPrefixOf ((p ++ originPat ++ s).drop i) := by
        intro i hi
        exact hno (i + 1) (by simpa using Nat.succ_lt_succ hi)
      exact congrArg (fun l => c :: l) (ih s hnext)

/-- Claim C5 (witness): the leftmost-occurrence statement applied to the
source branch "feature/" ++ "origin/" ++ "x". -/
theorem remove_origin_amended_witness :
    removeFirst originPat ("feature/".toList ++ originPat ++ "x".toList)
      = "feature/".toList ++ "x".toList :=
  remove_origin_amended.2.1 ("feature/".toList) ("x".toList) (by decide)

theorem toNat_ofNat_valid {n : Nat} (h : n.isValidChar) : (Char.ofNat n).toNat = n := by
  rw [Char.ofNat, dif_pos h]
  rfl

theorem toLower_eq_slash_iff (c : Char) : Char.toLower c = slashChar ↔ c = slashChar := by
  rw [Char.toLower]
  split_ifs with h
  · obtain ⟨h1, h2⟩ := h
    constructor
    · intro heq
      exfalso
      have hv : (c.toNat + 32).isValidChar := Or.inl (by omega)
      have heq2 := congrArg Char.toNat heq
      rw [toNat_ofNat_valid hv] at heq2
      have h47 : slashChar.toNat = 47 := by decide
      omega
    · intro heq
      exfalso
      subst heq
      revert h1
      decide
  · exact Iff.rfl

theorem beq_toLower_slash (c : Char) : (Char.toLower c == slashChar) = (c == slashChar) := by
  by_cases h : c = slashChar
  · subst h
    decide
  · have h2 : Char.toLower c ≠ slashChar := fun hh => h ((toLower_eq_slash_iff c).mp hh)
    simp [h, h2]

theorem pyLower_lastSeg (s : List Char) : lastSeg (pyLower s) = pyLower (lastSeg s) := by
  have hfun : ((fun c => !(c == slashChar)) ∘ Char.toLower) = (fun c => !(c == slashChar)) := by
    funext c
    simp only [Function.comp]
    rw [beq_toLower_slash]
  simp only [lastSeg, pyLower]
  rw [← List.map_reverse, List.takeWhile_map, hfun, ← List.map_reverse]

/-- Claim C6 (counterexample): on the branch name "main " (trailing space)
the code first strips surrounding whitespace (main.py line 120) and returns
"completed", while the claimed rule — compare the lower-cased final
slash-separated segment, which here is "main " with its space — returns
none, so the claim as stated is false. -/
theorem derive_status_strip_counterexample :
    derive_status_key_from_branch ("main ".toList) = some ("completed".toList) ∧
    deriveStatusSpecClaim ("main ".toList) = none := by
  refine ⟨by decide, by decide⟩

/-- Claim C6 (amended): for every branch name carrying no surrounding
whitespace, `derive_status_key_from_branch` agrees with the claimed rule:
the final slash-separated segment lower-cased decides the status — "main"
or "master" give "completed", "dev" gives "testing", anything else none,
and the empty name gives none.  (On other inputs the code strips the
whitespace first.) -/
theorem derive_status_amended : ∀ b : List Char, pyStrip b = b →
    derive_status_key_from_branch b = deriveStatusSpecClaim b := by
  intro b h
  rw [derive_status_key_from_branch, deriveStatusSpecClaim, h]
  by_cases hb : b = []
  · subst hb
    simp [pyLower]
  · have h1 : ¬ pyLower b = [] := by
      simp only [pyLower, List.map_eq_nil_iff]
      exact hb
    rw [if_neg h1, if_neg hb, pyLower_lastSeg]

/-- Claim C6 (witness): the amended statement applied to "release/Dev",
a branch name without surrounding whitespace. -/
theorem derive_status_amended_witness :
    derive_status_key_from_branch ("release/Dev".toList)
      = deriveStatusSpecClaim ("release/Dev".toList) :=
  derive_status_amended ("release/Dev".toList) (by decide)

/-- Claim C8 (counterexample): the string value "/x " starts with a slash,
but it is not passed through unchanged: `normalize_status_value` strips it
first and returns "/x", so the pass-through-unchanged part of the claim is
false.  The boolean value true — neither an integer nor a string in the
claim's terms, hence "another shape" to be dropped — is not dropped
either: Python bool is a subclass of int, so it takes the integer branch
and becomes the path "/api/v3/statuses/True". -/
theorem normalize_status_passthrough_counterexample :
    (normalize_status_value (JsonValue.str ("/x ".toList)) = some ("/x".toList) ∧
      ("/x".toList : List Char) ≠ "/x ".toList) ∧
    normalize_status_value (JsonValue.bool true) =
      some ("/api/v3/statuses/True".toList) := by
  refine ⟨⟨by decide, by decide⟩, by decide⟩

/-- Claim C8 (amended): `normalize_status_value` strips string values of
surrounding whitespace first and then behaves as claimed for integers and
strings: an integer becomes the synthetic tracker path of its decimal
form, a stripped nonempty digit string becomes the synthetic path of that
string (so 5 and "5" agree), a stripped string starting with "http" or a
slash is passed through in stripped form; a boolean, being a Python int,
becomes the synthetic path of its "True"/"False" rendering rather than
being dropped; only values that are not ints, bools or strings are
dropped. -/
theorem normalize_status_amended :
    (∀ v : JsonValue, normalize_status_value v = normalizeSpecAmended v) ∧
    normalize_status_value (JsonValue.int 5) = some ("/api/v3/statuses/5".toList) ∧
    normalize_status_value (JsonValue.str ("5".toList)) = some ("/api/v3/statuses/5".toList) ∧
    normalize_status_value (JsonValue.str ("not-a-number-or-path".toList)) = none ∧
    normalize_status_value (JsonValue.bool false) =
      some ("/api/v3/statuses/False".toList) ∧
    normalize_status_value JsonValue.other = none := by
  refine ⟨?_, by decide, by decide, by decide, by decide, by decide⟩
  intro v
  cases v with
  | bool b => rfl
  | int n => rfl
  | other => rfl
  | str s =>
    rw [normalize_status_value, normalizeSpecAmended]
    by_cases h0 : pyStrip s = []
    · have hc1 : ¬ (pyStrip s ≠ [] ∧ (pyStrip s).all Char.isDigit = true) :=
        fun hc => hc.1 h0
      have hc2 : ¬ (("http".toList.isPrefixOf (pyStrip s) ||
          [slashChar].isPrefixOf (pyStrip s)) = true) := by
        rw [h0]
        decide
      rw [if_pos h0, if_neg hc1, if_neg hc2]
    · by_cases hd : (pyStrip s).all Char.isDigit = true
      · have hpd : pyIsDigit (pyStrip s) = true := by
          simp [pyIsDigit, List.isEmpty_iff, h0, hd]
        rw [if_neg h0, if_pos hpd, if_pos ⟨h0, hd⟩]
      · have hpd : ¬ pyIsDigit (pyStrip s) = true := by
          simp [pyIsDigit, hd]
        have hc1 : ¬ (pyStrip s ≠ [] ∧ (pyStrip s).all Char.isDigit = true) :=
          fun hc => hd hc.2
        rw [if_neg h0, if_neg hpd, if_neg hc1]
        by_cases hh : "http".toList.isPrefixOf (pyStrip s) = true
        · have hL : ("http".toList.isPrefixOf (pyStrip s) ||
              "/api/".toList.isPrefixOf (pyStrip s)) = true := by
            rw [hh, Bool.true_or]
          have hR : ("http".toList.isPrefixOf (pyStrip s) ||
              [slashChar].isPrefixOf (pyStrip s)) = true := by
            rw [hh, Bool.true_or]
          rw [if_pos hL, if_pos hR]
        · by_cases ha : "/api/".toList.isPrefixOf (pyStrip s) = true
          · have hL : ("http".toList.isPrefixOf (pyStrip s) ||
                "/api/".toList.isPrefixOf (pyStrip s)) = true := by
              rw [ha, Bool.or_true]
            have hslash : [slashChar].isPrefixOf (pyStrip s) = true := by
              rw [ List.isPrefixOf_iff_prefix] at ha ⊢
              exact List.IsPrefix.trans (show List.IsPrefix [slashChar] ("/api/".toList) by decide) ha
            have hR : ("http".toList.isPrefixOf (pyStrip s) ||
                [slashChar].isPrefixOf (pyStrip s)) = true := by
              rw [hslash, Bool.or_true]
            rw [if_pos hL, if_pos hR]
          · have hL : ¬ (("http".toList.isPrefixOf (pyStrip s) ||
                "/api/".toList.isPrefixOf (pyStrip s)) = true) := by
              rw [Bool.or_eq_true]
              exact fun hor => hor.elim hh ha
            rw [if_neg hL]
            by_cases hsl : [slashChar].isPrefixOf (pyStrip s) = true
            · have hR : ("http".toList.isPrefixOf (pyStrip s) ||
                  [slashChar].isPrefixOf (pyStrip s)) = true := by
                rw [hsl, Bool.or_true]
              rw [if_pos hsl, if_pos hR]
            · have hR : ¬ (("http".toList.isPrefixOf (pyStrip s) ||
                  [slashChar].isPrefixOf (pyStrip s)) = true) := by
                rw [Bool.or_eq_true]
                exact fun hor => hor.elim hh hsl
              rw [if_neg hsl, if_neg hR]

/-- Claim C10: in `update_task_status`, when the work-item read succeeds
(status below 300 and not 404) but the response body contains no
lockVersion, the function raises HTTP 500 and the PATCH write is never
attempted. -/
theorem update_task_status_missing_lock :
    ∀ (h : List Char) (fetch patch : Option TrackerResponse) (r : TrackerResponse),
      fetch = some r → r.status_code < 300 → r.status_code ≠ 404 → r.lockVersion = none →
      update_task_status (some h) true fetch patch = (UpdateResult.raised 500, false) := by
  intro h fetch patch r hf h300 h404 hlock
  subst hf
  have hle : ¬ 300 ≤ r.status_code := by omega
  simp [update_task_status, h404, hle, hlock]

/-- Claim C10 (witness): a successful read with status 200 and no
lockVersion raises 500 without attempting the write. -/
theorem update_task_status_missing_lock_witness :
    update_task_status (some ("/api/v3/statuses/3".toList)) true
        (some { status_code := 200, lockVersion := none }) none
      = (UpdateResult.raised 500, false) :=
  update_task_status_missing_lock ("/api/v3/statuses/3".toList)
    (some { status_code := 200, lockVersion := none }) none
    { status_code := 200, lockVersion := none } rfl (by decide) (by decide) rfl
